import Mathlib

/-!
Verification development for the `ugdb` GDB terminal frontend
(`src/gui/mod.rs`): a command console, a pseudo-terminal view with
incremental UTF-8 decoding, and a source-file pager driven by GDB
out-of-band records.

The Rust code is embedded shallowly: structs become structures, methods
become functions on those structures, `io`/filesystem effects are passed
explicitly through an external-world record, and panics (`expect`,
arithmetic underflow with overflow checks) become `Option` results
(`none` = fault).
-/

set_option autoImplicit false

namespace Ugdb

/-! ## UTF-8 validation, as performed by Rust's `String::from_utf8`

`PseudoTerminal::add_byte_input` decodes its pending buffer with
`String::from_utf8`, which succeeds exactly on byte sequences that are
valid UTF-8 (no overlong forms, no surrogates, no code points above
`0x10FFFF`).  Bytes are modelled as `Nat` (values of a `u8` are
`< 256`; a value `≥ 0x80` that is not a legal leading byte fails
validation anyway, so no side condition is needed).

The display log of the terminal's `LogViewer` is modelled by the byte
sequence of everything written to it: on valid sequences UTF-8 decoding
followed by re-encoding is the identity, so two logs show the same
decoded text iff their byte sequences are equal.
-/

/-- Byte ranges the bytes following a leading byte `b0` must fall into
(the RFC 3629 well-formedness table, which is exactly what Rust checks):
`none` means `b0` cannot start a character, `some rs` means `rs.length`
more bytes are required, the `i`-th lying in range `rs[i]`.  The special
second-byte ranges exclude overlong forms (`0xE0`, `0xF0`), surrogates
(`0xED`) and code points above `U+10FFFF` (`0xF4`). -/
def utf8Req (b0 : Nat) : Option (List (Nat × Nat)) :=
  if b0 ≤ 0x7F then some []
  else if b0 ≤ 0xC1 then none
  else if b0 ≤ 0xDF then some [(0x80, 0xBF)]
  else if b0 = 0xE0 then some [(0xA0, 0xBF), (0x80, 0xBF)]
  else if b0 = 0xED then some [(0x80, 0x9F), (0x80, 0xBF)]
  else if b0 ≤ 0xEF then some [(0x80, 0xBF), (0x80, 0xBF)]
  else if b0 = 0xF0 then some [(0x90, 0xBF), (0x80, 0xBF), (0x80, 0xBF)]
  else if b0 ≤ 0xF3 then some [(0x80, 0xBF), (0x80, 0xBF), (0x80, 0xBF)]
  else if b0 = 0xF4 then some [(0x80, 0x8F), (0x80, 0xBF), (0x80, 0xBF)]
  else none

/-- Byte-by-byte UTF-8 validation: `req` is the list of ranges still owed
to the character currently being read (empty at a character boundary). -/
def validFrom : List (Nat × Nat) → List Nat → Bool
  | [], [] => true
  | [], b0 :: rest =>
    match utf8Req b0 with
    | some req => validFrom req rest
    | none => false
  | _ :: _, [] => false
  | (lo, hi) :: req, b :: rest => decide (lo ≤ b ∧ b ≤ hi) && validFrom req rest

/-- Whether `String::from_utf8` succeeds on this byte sequence. -/
def validUtf8 (l : List Nat) : Bool := validFrom [] l

/-- The bytes `t` are consumed by the leading ranges of `req`, possibly
leaving ranges over. -/
def matchesRanges : List (Nat × Nat) → List Nat → Bool
  | _, [] => true
  | [], _ :: _ => false
  | (lo, hi) :: req, b :: t => decide (lo ≤ b ∧ b ≤ hi) && matchesRanges req t

/-- Whether `l` is a proper, non-empty front part of the encoding of a single
UTF-8 character: a leading byte whose announced length exceeds the bytes
present, each present continuation byte in its admissible range.  This is
the formalisation of the spec's "trailing bytes of an incomplete encoded
character". -/
def isIncompleteChar (l : List Nat) : Bool :=
  match l with
  | [] => false
  | b0 :: t =>
    match utf8Req b0 with
    | none => false
    | some req => decide (t.length < req.length) && matchesRanges req t

/-! ## `PseudoTerminal` (the pty view)

```rust
pub struct PseudoTerminal { pty: pty::PTYInput, display: LogViewer, input_buffer: Vec<u8> }
```
The `pty` write end is not needed for the claims and is omitted;
`display` is the byte sequence of all text written to the log viewer.
-/

structure PseudoTerminal where
  display : List Nat
  input_buffer : List Nat
  deriving Repr, DecidableEq

/-- Constructor `PseudoTerminal::new`: empty display log, empty pending buffer. -/
def PseudoTerminal.new : PseudoTerminal := ⟨[], []⟩

/-- Source:
```rust
fn add_byte_input(&mut self, mut bytes: Vec<u8>) {
    self.input_buffer.append(&mut bytes);
    if let Ok(string) = String::from_utf8(self.input_buffer.clone()) {
        self.display.write_str(&string).expect("Write byte to terminal");
        self.input_buffer.clear();
    }
}
```
-/
def PseudoTerminal.add_byte_input (s : PseudoTerminal) (bytes : List Nat) : PseudoTerminal :=
  let buf := s.input_buffer ++ bytes
  if validUtf8 buf then ⟨s.display ++ buf, []⟩ else ⟨s.display, buf⟩

/-- Deliver a list of byte chunks through successive `add_byte_input` calls. -/
def feedCalls (s : PseudoTerminal) (calls : List (List Nat)) : PseudoTerminal :=
  calls.foldl PseudoTerminal.add_byte_input s

/-- Deliver a byte sequence one byte per `add_byte_input` call. -/
def feedBytes (s : PseudoTerminal) (bytes : List Nat) : PseudoTerminal :=
  bytes.foldl (fun s b => s.add_byte_input [b]) s

/-! ## The GDB session (external collaborator)

`gdbmi::GDB` is an external crate.  Its narrow interface
(`execute(cmd) -> Result<ResultRecord, ExecuteError>` with
`ExecuteError::{Quit, Busy}`, and `interrupt_execution()`) is modelled by
an observable call log plus a response oracle `resp` giving the outcome
of each executed command; the `{:?}`-rendering of a successful result
record is abstracted as the `String` carried by `ExecResult.ok`. -/

/-- Outcome of `gdb.execute(..)`: `Ok(result)`, `Err(Quit)` or `Err(Busy)`. -/
inductive ExecResult where
  | ok (r : String)
  | errQuit
  | errBusy
  deriving Repr, DecidableEq

structure GdbState where
  interrupts : Nat
  executed : List String
  deriving Repr, DecidableEq

/-- Call `gdb.interrupt_execution()` (the `expect` on its `Result` never fires in
the model: OS-level failure of the interrupt call is outside this core). -/
def GdbState.interrupt_execution (g : GdbState) : GdbState :=
  { g with interrupts := g.interrupts + 1 }

/-- Call `gdb.execute(&MiCommand::cli_exec(line))`: records the executed command,
the oracle decides the outcome. -/
def GdbState.execute (g : GdbState) (resp : String → ExecResult) (cmd : String) :
    GdbState × ExecResult :=
  ({ g with executed := g.executed ++ [cmd] }, resp cmd)

/-! ## `gdbmi::output` records (external data definitions) -/

inductive AsyncKind where
  | exec
  | status
  | notify
  deriving Repr, DecidableEq

inductive AsyncClass where
  | stopped
  | running
  | clsOther (s : String)
  deriving Repr, DecidableEq

inductive StreamKind where
  | console
  | target
  | log
  deriving Repr, DecidableEq

/-- Result values of `gdbmi`: a string constant, a tuple of named values, or a
list of values. -/
inductive Value where
  | const (s : String)
  | tuple (elems : List (String × Value))
  | valueList (vs : List Value)

abbrev NamedValues := List (String × Value)

/-- Method `NamedValues::remove(key)`: destructively extract the first binding of
`key`, returning the value and the remaining bindings. -/
def nvRemove : NamedValues → String → Option (Value × NamedValues)
  | [], _ => none
  | (k, v) :: rest, key =>
    if k = key then some (v, rest)
    else (nvRemove rest key).map (fun p => (p.1, (k, v) :: p.2))

/-- Method `Value::unwrap_const`: panics (`none`) unless the value is a constant. -/
def Value.unwrap_const : Value → Option String
  | .const s => some s
  | _ => none

/-- Method `Value::unwrap_tuple_or_named_value_list`: panics (`none`) unless the
value carries named values. -/
def Value.unwrap_tuple_or_named_value_list : Value → Option NamedValues
  | .tuple elems => some elems
  | _ => none

/-- Rust's `str::parse::<usize>`: an optional leading `+`, then one or more
decimal digits, failing on any other character and on overflow of the
64-bit unsigned range. -/
def parseUsize (s : String) : Option Nat :=
  let digits := match s.data with
    | '+' :: rest => rest
    | l => l
  if digits = [] then none
  else if digits.all (fun c => c.isDigit) then
    let v := digits.foldl (fun acc c => acc * 10 + (c.toNat - 48)) 0
    if v < 2 ^ 64 then some v else none
  else none

/-- Rust `usize` subtraction of 1: underflow at 0 is a fault (the build
carries overflow checks), modelled as `none`. -/
def checkedSub1 (n : Nat) : Option Nat :=
  if n = 0 then none else some (n - 1)

/-! ## Console log entries

`Console::add_message` renders `" -=- {}\n"` into the log's text; the
distinct `format!` calls of the source are kept apart as constructors, so
two logs agree iff the same messages were appended in the same order. -/

inductive LogMsg where
  /-- Echo of a submitted command, `format!("(gdb) {}", line)`. -/
  | echo (line : String)
  /-- Message `format!("Result: {:?}", result)`. -/
  | result (r : String)
  /-- Message `format!("quit")`. -/
  | quitMsg
  /-- Message `format!("GDB is running!")`. -/
  | busyMsg
  /-- Message `format!("stopped: {:?}", results)`. -/
  | stopped (results : NamedValues)
  /-- Message `format!("unhandled async_record: [{:?}, {:?}] {:?}", kind, class, results)`. -/
  | unhandled (kind : AsyncKind) (cls : AsyncClass) (results : NamedValues)
  /-- Message `format!("Debug: {}", msg)`. -/
  | debugMsg (s : String)
  /-- text written directly to the text area (stream records). -/
  | raw (s : String)

/-! ## Input events (`unsegen::Input`/`Event`/`Key`) -/

inductive Key where
  | char (c : Char)
  | ctrl (c : Char)
  | left
  | right
  | up
  | down
  | delete
  | backspace
  | pageUp
  | pageDown
  deriving Repr, DecidableEq

inductive Event where
  | key (k : Key)
  deriving Repr, DecidableEq

/-! ## `Console`

```rust
struct Console { text_area: LogViewer, prompt_line: PromptLine, layout: VerticalLayout }
```
The layout is drawing-only and omitted.  The `LogViewer` is its message
list plus a scroll position; the `PromptLine` is its text plus a cursor.
-/

structure Console where
  text_area : List LogMsg
  scroll : Nat
  prompt_line : String
  cursor : Nat

def Console.new : Console := ⟨[], 0, "", 0⟩

/-- Method `Console::add_message`: append one formatted line; always succeeds. -/
def Console.add_message (c : Console) (m : LogMsg) : Console :=
  { c with text_area := c.text_area ++ [m] }

/-- Insert a character at position `i` of the prompt. -/
def insertAt (s : String) (i : Nat) (ch : Char) : String :=
  ⟨s.data.take i ++ ch :: s.data.drop i⟩

/-- Remove the character at position `i` of the prompt. -/
def deleteAt (s : String) (i : Nat) : String :=
  ⟨s.data.take i ++ s.data.drop (i + 1)⟩

/-- The `EditBehavior` chained in `Console::event`: bound keys are consumed
and applied to the prompt line (`left_on/right_on/up_on/down_on/
delete_symbol_on/remove_symbol_on/clear_on(Ctrl('c'))`, printable input
written through); unbound keys pass on.  Modelled from the spec: the
editing behaviour itself lives in the external `unsegen` crate ("cursor
move, delete/backspace, clear-on-interrupt-key"); history navigation
(up/down) consumes the event without touching the prompt text. -/
def Console.editStep (c : Console) (e : Event) : Option Console :=
  match e with
  | .key .left => some { c with cursor := c.cursor - 1 }
  | .key .right => some { c with cursor := min (c.cursor + 1) c.prompt_line.length }
  | .key .up => some c
  | .key .down => some c
  | .key .delete => some { c with prompt_line := deleteAt c.prompt_line c.cursor }
  | .key .backspace =>
    if c.cursor = 0 then some c
    else some { c with prompt_line := deleteAt c.prompt_line (c.cursor - 1),
                       cursor := c.cursor - 1 }
  | .key (.ctrl ch) =>
    if ch = 'c' then some { c with prompt_line := "", cursor := 0 } else none
  | .key (.char ch) =>
    some { c with prompt_line := insertAt c.prompt_line c.cursor ch, cursor := c.cursor + 1 }
  | _ => none

/-- The `ScrollBehavior` chained after editing: page keys scroll the log.
Modelled from the spec ("paged scrolling"); the page size is irrelevant to
the claims, one step per key press. -/
def Console.scrollStep (c : Console) (e : Event) : Option Console :=
  match e with
  | .key .pageDown => some { c with scroll := c.scroll + 1 }
  | .key .pageUp => some { c with scroll := c.scroll - 1 }
  | _ => none

/-- The log line `Console::event` appends for each `gdb.execute` outcome. -/
def outcomeMsg : ExecResult → LogMsg
  | .ok r => .result r
  | .errQuit => .quitMsg
  | .errBusy => .busyMsg

/-- Source:
```rust
pub fn event(&mut self, input: unsegen::Input, gdb: &mut gdbmi::GDB) {
    if input.event == Event::Key(Key::Char('\n')) {
        let line = self.prompt_line.finish_line().to_owned();
        match line.as_ref() {
            "!stop" => { gdb.interrupt_execution().expect("interrupted gdb"); },
            _ => {
                self.add_message(format!("(gdb) {}", line));
                match gdb.execute(&gdbmi::input::MiCommand::cli_exec(line)) {
                    Ok(result) => { self.add_message(format!("Result: {:?}", result)); },
                    Err(gdbmi::ExecuteError::Quit) => { self.add_message(format!("quit")); },
                    Err(gdbmi::ExecuteError::Busy) => { self.add_message(format!("GDB is running!")); },
                }
            },
        }
    } else {
        let _ = input.chain(|i| ...Ctrl('c') with empty prompt -> interrupt, consume...)
            .chain(EditBehavior::new(&mut self.prompt_line)...)
            .chain(ScrollBehavior::new(&mut self.text_area)...);
    }
}
```
`PromptLine::finish_line` extracts the current line and resets the prompt.
-/
def Console.event (c : Console) (gdb : GdbState) (resp : String → ExecResult) (e : Event) :
    Console × GdbState :=
  if e = Event.key (Key.char '\n') then
    let line := c.prompt_line
    let c1 : Console := { c with prompt_line := "", cursor := 0 }
    if line = "!stop" then
      (c1, gdb.interrupt_execution)
    else
      let c2 := c1.add_message (.echo line)
      match gdb.execute resp line with
      | (gdb1, .ok r) => (c2.add_message (.result r), gdb1)
      | (gdb1, .errQuit) => (c2.add_message .quitMsg, gdb1)
      | (gdb1, .errBusy) => (c2.add_message .busyMsg, gdb1)
  else
    if e = Event.key (Key.ctrl 'c') ∧ c.prompt_line = "" then
      (c, gdb.interrupt_execution)
    else
      match c.editStep e with
      | some c1 => (c1, gdb)
      | none =>
        match c.scrollStep e with
        | some c1 => (c1, gdb)
        | none => (c, gdb)

/-! ## File storage, highlighting and the `Pager` (external collaborators)

`FileLineStorage`, `SyntectHighLighter` and `Pager` live in the external
`unsegen`/`syntect` crates; they are modelled from the spec's interface
description (open/line count/line lookup; syntax-for-file with plain-text
fallback; jump-to-line).  Filesystem reads go through an explicit external
world `Fs`; `Fs.opens` records every attempted storage open so that
(re)load behaviour is observable. -/

abbrev Theme := String

abbrev SynDef := String

/-- Fallback returned by the plain-text lookup of the syntax set. -/
def plainTextSyn : SynDef := "Plain Text"

structure FileLineStorage where
  path : String
  lines : List String
  deriving Repr, DecidableEq

structure Fs where
  files : String → Option (List String)
  synFor : String → Option SynDef
  opens : List String

/-- Constructor `FileLineStorage::new(path)`: attempt to open the file; `none` is the
`io::Error` case.  The storage keeps its path (`get_file_path`). -/
def FileLineStorage.new (fs : Fs) (path : String) : Fs × Option FileLineStorage :=
  ({ fs with opens := fs.opens ++ [path] },
   (fs.files path).map (fun ls => ⟨path, ls⟩))

/-- Lookup `SyntaxSet::find_syntax_for_file(path)`: inspects the file (it reads its
first line), so it fails with an `io::Error` exactly when the file cannot
be opened; otherwise it yields the matching syntax, if any. -/
def findSynForFile (fs : Fs) (path : String) : Except Unit (Option SynDef) :=
  if (fs.files path).isSome then .ok (fs.synFor path) else .error ()

/-- Pager content: line storage plus the bound highlighter
(`SyntectHighLighter::new(syntax, theme)`). -/
structure LoadedFile where
  storage : FileLineStorage
  syn : SynDef
  theme : Theme
  deriving Repr, DecidableEq

structure Pager where
  content : Option LoadedFile
  pos : Nat
  deriving Repr, DecidableEq

def Pager.new : Pager := ⟨none, 0⟩

/-- Method `Pager::load(storage, highlighter)`: replace the content, viewport at
the top. -/
def Pager.load (_p : Pager) (stor : FileLineStorage) (syn : SynDef) (theme : Theme) : Pager :=
  { content := some ⟨stor, syn, theme⟩, pos := 0 }

/-- Method `Pager::go_to_line(line)`: position the viewport at `line` if the
storage has such a line, otherwise fail and change nothing. -/
def Pager.go_to_line (p : Pager) (line : Nat) : Except Unit Pager :=
  match p.content with
  | none => .error ()
  | some lf =>
    if line < lf.storage.lines.length then .ok { p with pos := line } else .error ()

/-! ## `Gui` -/

inductive PagerShowError where
  | couldNotOpenFile (e : Unit)
  | lineDoesNotExist (line : Nat)
  deriving Repr, DecidableEq

/-- Source:
```rust
pub struct Gui<'a> { console: Console, process_pty: PseudoTerminal,
    highlighting_theme: &'a Theme, file_viewer: Pager<FileLineStorage, SyntectHighLighter<'a>>,
    syntax_set: SyntaxSet, left_layout: VerticalLayout, right_layout: VerticalLayout }
```
The layouts are drawing-only and omitted; the syntax set's file lookup is
part of `Fs` (it inspects files). -/
structure Gui where
  console : Console
  process_pty : PseudoTerminal
  highlighting_theme : Theme
  file_viewer : Pager

/-- The reload condition of `show_in_file_viewer`:
`content.storage.get_file_path() != path`, or no content yet. -/
def needToReload (g : Gui) (path : String) : Bool :=
  match g.file_viewer.content with
  | some content => content.storage.path != path
  | none => true

/-- Source:
```rust
pub fn load_in_file_viewer<P: AsRef<Path>>(&mut self, path: P) -> io::Result<()> {
    let file_storage = try!{FileLineStorage::new(path.as_ref())};
    let syntax = self.syntax_set.find_syntax_for_file(path.as_ref())
        .expect("file IS openable, see file storage")
        .unwrap_or(self.syntax_set.find_syntax_plain_text());
    self.file_viewer.load(file_storage, SyntectHighLighter::new(syntax, self.highlighting_theme));
    Ok(())
}
```
The outer `none` is the `expect` fault. -/
def Gui.load_in_file_viewer (fs : Fs) (g : Gui) (path : String) :
    Option (Fs × Except Unit Gui) :=
  match FileLineStorage.new fs path with
  | (fs1, none) => some (fs1, .error ())
  | (fs1, some stor) =>
    match findSynForFile fs1 path with
    | .error _ => none
    | .ok so =>
      let syn := so.getD plainTextSyn
      some (fs1, .ok { g with
        file_viewer := g.file_viewer.load stor syn g.highlighting_theme })

/-- Source:
```rust
pub fn show_in_file_viewer<P: AsRef<Path>>(&mut self, path: P, line: usize)
        -> Result<(), PagerShowError> {
    let need_to_reload = if let Some(ref content) = self.file_viewer.content {
        content.storage.get_file_path() != path.as_ref()
    } else { true };
    if need_to_reload {
        try!{self.load_in_file_viewer(path).map_err(|e| PagerShowError::CouldNotOpenFile(e))};
    }
    self.file_viewer.go_to_line(line).map_err(|_| PagerShowError::LineDoesNotExist(line))
}
```
-/
def Gui.show_in_file_viewer (fs : Fs) (g : Gui) (path : String) (line : Nat) :
    Option (Fs × Gui × Except PagerShowError Unit) :=
  if needToReload g path then
    match Gui.load_in_file_viewer fs g path with
    | none => none
    | some (fs1, .error e) => some (fs1, g, .error (.couldNotOpenFile e))
    | some (fs1, .ok g1) =>
      match g1.file_viewer.go_to_line line with
      | .ok pg => some (fs1, { g1 with file_viewer := pg }, .ok ())
      | .error _ => some (fs1, g1, .error (.lineDoesNotExist line))
  else
    match g.file_viewer.go_to_line line with
    | .ok pg => some (fs, { g with file_viewer := pg }, .ok ())
    | .error _ => some (fs, g, .error (.lineDoesNotExist line))

def addConsoleMsg (g : Gui) (m : LogMsg) : Gui :=
  { g with console := g.console.add_message m }

/-- Source:
```rust
fn handle_async_record(&mut self, kind: AsyncKind, class: AsyncClass, mut results: NamedValues) {
    match (kind, class) {
        (AsyncKind::Exec, AsyncClass::Stopped) => {
            self.console.add_message(format!("stopped: {:?}", results));
            let mut frame = results.remove("frame").expect("frame present").unwrap_tuple_or_named_value_list();
            let path = frame.remove("fullname").expect("fullname present").unwrap_const();
            let line = frame.remove("line").expect("line present").unwrap_const()
                .parse::<usize>().expect("parse usize") - 1;
            self.show_in_file_viewer(path, line).expect("gdb surely would never lie to us!");
        },
        (kind, class) => self.console.add_message(format!("unhandled async_record: [{:?}, {:?}] {:?}", kind, class, results)),
    }
}
```
Every `expect` (and the underflowing `- 1`) is a fault, `none`. -/
def Gui.handle_async_record (fs : Fs) (g : Gui) (kind : AsyncKind) (cls : AsyncClass)
    (results : NamedValues) : Option (Fs × Gui) :=
  match kind, cls with
  | .exec, .stopped =>
    let g1 := addConsoleMsg g (.stopped results)
    match nvRemove results "frame" with
    | none => none
    | some (frameVal, _rest) =>
      match frameVal.unwrap_tuple_or_named_value_list with
      | none => none
      | some frame =>
        match nvRemove frame "fullname" with
        | none => none
        | some (pathVal, frame2) =>
          match pathVal.unwrap_const with
          | none => none
          | some path =>
            match nvRemove frame2 "line" with
            | none => none
            | some (lineVal, _frame3) =>
              match lineVal.unwrap_const with
              | none => none
              | some lineStr =>
                match parseUsize lineStr with
                | none => none
                | some n =>
                  match checkedSub1 n with
                  | none => none
                  | some line =>
                    match Gui.show_in_file_viewer fs g1 path line with
                    | some (fs1, g2, .ok _) => some (fs1, g2)
                    | some (_, _, .error _) => none
                    | none => none
  | k, c => some (fs, addConsoleMsg g (.unhandled k c results))

inductive OutOfBandRecord where
  | streamRecord (kind : StreamKind) (data : String)
  | asyncRecord (token : Option Nat) (kind : AsyncKind) (cls : AsyncClass)
      (results : NamedValues)

/-- Source:
```rust
pub fn add_out_of_band_record(&mut self, record: OutOfBandRecord) {
    match record {
        OutOfBandRecord::StreamRecord{ kind: _, data} => { write!(self.console.text_area, "{}", data)...; },
        OutOfBandRecord::AsyncRecord{token: _, kind, class, results} => {
            self.handle_async_record(kind, class, results);
        },
    }
}
```
-/
def Gui.add_out_of_band_record (fs : Fs) (g : Gui) (r : OutOfBandRecord) :
    Option (Fs × Gui) :=
  match r with
  | .streamRecord _ data =>
    some (fs, { g with console :=
      { g.console with text_area := g.console.text_area ++ [.raw data] } })
  | .asyncRecord _ kind cls results =>
    Gui.handle_async_record fs g kind cls results

/-- Method `Gui::add_pty_input`. -/
def Gui.add_pty_input (g : Gui) (input : List Nat) : Gui :=
  { g with process_pty := g.process_pty.add_byte_input input }

/-- Method `Gui::add_debug_message`. -/
def Gui.add_debug_message (g : Gui) (msg : String) : Gui :=
  addConsoleMsg g (.debugMsg msg)

/-! ## Observables used in claim statements -/

/-- The path of the file currently loaded in the pager, if any. -/
def pagerPathOf (g : Gui) : Option String :=
  g.file_viewer.content.map (fun lf => lf.storage.path)

/-- The storage-open log after a `show_in_file_viewer` call
(`none` if the call faulted). -/
def opensOf (r : Option (Fs × Gui × Except PagerShowError Unit)) : Option (List String) :=
  r.map (fun x => x.1.opens)

/-- The error a `show_in_file_viewer` call returned, if any. -/
def showErrOf (r : Option (Fs × Gui × Except PagerShowError Unit)) : Option PagerShowError :=
  match r with
  | some (_, _, .error e) => some e
  | _ => none

/-- The `Gui` state after a `show_in_file_viewer` call. -/
def showGuiOf (r : Option (Fs × Gui × Except PagerShowError Unit)) : Option Gui :=
  r.map (fun x => x.2.1)

/-! ## Concrete fixtures for counterexamples and witnesses -/

/-- A world with two openable files. -/
def fsAB : Fs :=
  { files := fun p =>
      if p = "/a.c" then some ["aaa", "bbb"]
      else if p = "/b.c" then some ["xxx"]
      else none,
    synFor := fun p => if p = "/a.c" then some "C" else none,
    opens := [] }

/-- Twelve lines of text. -/
def tallLines : List String :=
  ["l1", "l2", "l3", "l4", "l5", "l6", "l7", "l8", "l9", "l10", "l11", "l12"]

/-- A world where `/a.c` has twelve lines. -/
def fsTall : Fs :=
  { files := fun p => if p = "/a.c" then some tallLines else none,
    synFor := fun _ => none,
    opens := [] }

/-- A gui with `/a.c` (two lines) loaded in the file viewer. -/
def guiA : Gui :=
  { console := Console.new,
    process_pty := PseudoTerminal.new,
    highlighting_theme := "base16",
    file_viewer := { content := some ⟨⟨"/a.c", ["aaa", "bbb"]⟩, "C", "base16"⟩, pos := 0 } }

/-- A gui with nothing loaded. -/
def guiEmpty : Gui :=
  { console := Console.new,
    process_pty := PseudoTerminal.new,
    highlighting_theme := "base16",
    file_viewer := Pager.new }

/-- A well-formed `stopped` payload pointing at line 11 of `/a.c`. -/
def stoppedResults : NamedValues :=
  [("frame", Value.tuple [("fullname", Value.const "/a.c"), ("line", Value.const "11")])]

/-- A stopped-record payload whose `line` field is `"0"`. -/
def stoppedResultsLine0 : NamedValues :=
  [("frame", Value.tuple [("fullname", Value.const "/a.c"), ("line", Value.const "0")])]

/-! ## UTF-8 lemmas -/

/-- Consuming a validly decoded block leaves the validator exactly where it
would start on the remainder. -/
theorem validFrom_append (xs : List Nat) : ∀ (req : List (Nat × Nat)) (ys : List Nat),
    validFrom req xs = true → validFrom req (xs ++ ys) = validFrom [] ys := by
  induction xs with
  | nil =>
    intro req ys h
    cases req with
    | nil => simp
    | cons r req' => simp [validFrom] at h
  | cons b xs' ih =>
    intro req ys h
    cases req with
    | nil =>
      simp only [validFrom, List.cons_append] at h ⊢
      cases hq : utf8Req b with
      | none => simp only [hq] at h; exact absurd h (by simp)
      | some req' =>
        simp only [hq] at h ⊢
        exact ih req' ys h
    | cons r req' =>
      obtain ⟨lo, hi⟩ := r
      simp only [validFrom, List.cons_append] at h ⊢
      simp only [Bool.and_eq_true] at h
      rw [h.1, Bool.true_and]
      exact ih req' ys h.2

/-- Validity of an extension of a valid sequence reduces to validity of the
extension. -/
theorem validUtf8_append (xs ys : List Nat) (h : validUtf8 xs = true) :
    validUtf8 (xs ++ ys) = validUtf8 ys :=
  validFrom_append xs [] ys h

/-- Concatenation preserves UTF-8 validity. -/
theorem validUtf8_append_valid (xs ys : List Nat) (hx : validUtf8 xs = true)
    (hy : validUtf8 ys = true) : validUtf8 (xs ++ ys) = true := by
  rw [validUtf8_append xs ys hx]; exact hy

/-! ## Pty view lemmas -/

theorem feedCalls_cons (s : PseudoTerminal) (c : List Nat) (cs : List (List Nat)) :
    feedCalls s (c :: cs) = feedCalls (s.add_byte_input c) cs := rfl

/-- One `add_byte_input` call keeps the display log valid UTF-8. -/
theorem add_byte_input_display_valid (s : PseudoTerminal) (c : List Nat)
    (h : validUtf8 s.display = true) : validUtf8 (s.add_byte_input c).display = true := by
  simp only [PseudoTerminal.add_byte_input]
  split
  · exact validUtf8_append_valid _ _ h (by assumption)
  · exact h

/-- Any sequence of calls keeps the display log valid UTF-8. -/
theorem feedCalls_display_valid (calls : List (List Nat)) : ∀ s : PseudoTerminal,
    validUtf8 s.display = true → validUtf8 (feedCalls s calls).display = true := by
  induction calls with
  | nil => intro s h; exact h
  | cons c cs ih =>
    intro s h
    rw [feedCalls_cons]
    exact ih _ (add_byte_input_display_valid s c h)

/-- No byte is lost or duplicated by one call: display plus buffer is
everything delivered. -/
theorem add_byte_input_content (s : PseudoTerminal) (c : List Nat) :
    (s.add_byte_input c).display ++ (s.add_byte_input c).input_buffer
      = s.display ++ s.input_buffer ++ c := by
  simp only [PseudoTerminal.add_byte_input]
  split <;> simp

/-- No byte is lost or duplicated across any sequence of calls. -/
theorem feedCalls_content (calls : List (List Nat)) : ∀ s : PseudoTerminal,
    (feedCalls s calls).display ++ (feedCalls s calls).input_buffer
      = s.display ++ s.input_buffer ++ calls.flatten := by
  induction calls with
  | nil => intro s; simp [feedCalls]
  | cons c cs ih =>
    intro s
    rw [feedCalls_cons, ih, add_byte_input_content]
    simp

/-- After a call the pending buffer is empty or fails to decode. -/
theorem add_byte_input_buffer_invalid (s : PseudoTerminal) (c : List Nat) :
    (s.add_byte_input c).input_buffer = []
      ∨ validUtf8 (s.add_byte_input c).input_buffer = false := by
  simp only [PseudoTerminal.add_byte_input]
  split
  · left; rfl
  · right; simpa using (by assumption : ¬ validUtf8 (s.input_buffer ++ c) = true)

/-- After any sequence of calls the pending buffer is empty or fails to
decode. -/
theorem feedCalls_buffer_invalid (calls : List (List Nat)) : ∀ s : PseudoTerminal,
    (s.input_buffer = [] ∨ validUtf8 s.input_buffer = false) →
    ((feedCalls s calls).input_buffer = []
      ∨ validUtf8 (feedCalls s calls).input_buffer = false) := by
  induction calls with
  | nil => intro s h; exact h
  | cons c cs ih =>
    intro s _
    rw [feedCalls_cons]
    exact ih _ (add_byte_input_buffer_invalid s c)

/-- When the total delivery is valid UTF-8, the final call flushes
everything: the display holds all bytes, the buffer is empty. -/
theorem feedCalls_flush (calls : List (List Nat)) (hne : calls ≠ []) : ∀ s : PseudoTerminal,
    validUtf8 s.display = true →
    validUtf8 (s.display ++ s.input_buffer ++ calls.flatten) = true →
    feedCalls s calls = ⟨s.display ++ s.input_buffer ++ calls.flatten, []⟩ := by
  induction calls with
  | nil => exact absurd rfl hne
  | cons c cs ih =>
    intro s hd ht
    by_cases hcs : cs = []
    · subst hcs
      have hstep := validUtf8_append s.display (s.input_buffer ++ c) hd
      simp only [List.flatten_cons, List.flatten_nil, List.append_nil,
        List.append_assoc] at ht
      have hbuf : validUtf8 (s.input_buffer ++ c) = true := by rw [← hstep]; exact ht
      rw [feedCalls_cons]
      simp only [feedCalls, List.foldl_nil, PseudoTerminal.add_byte_input, hbuf, if_pos]
      simp
    · rw [feedCalls_cons]
      simp only [PseudoTerminal.add_byte_input]
      split
      · rw [ih hcs ⟨s.display ++ (s.input_buffer ++ c), []⟩
            (validUtf8_append_valid _ _ hd (by assumption))
            (by simpa [List.append_assoc] using ht)]
        simp
      · rw [ih hcs ⟨s.display, s.input_buffer ++ c⟩ hd
            (by simpa [List.append_assoc] using ht)]
        simp

theorem feedBytes_eq_feedCalls (s : PseudoTerminal) (bytes : List Nat) :
    feedBytes s bytes = feedCalls s (bytes.map (fun b => [b])) := by
  simp [feedBytes, feedCalls, List.foldl_map]

theorem flatten_map_singleton (bytes : List Nat) :
    (bytes.map (fun b => [b])).flatten = bytes := by
  induction bytes with
  | nil => rfl
  | cons b bs ih => simp [ih]

/-! ## Claims C1 and C3: the pty view -/

/-- Claim C1, amended: for every byte sequence that is *valid UTF-8*,
delivering it to the pty view one byte per `add_byte_input` call writes
exactly the same decoded text to the display log as delivering it whole;
a truncated sequence delivered in one call and completed by a second call
likewise matches the single-call delivery; and for arbitrary call
sequences — valid or not — the display log only ever holds validly
decoded (never garbled) text.  The restriction to valid sequences is
forced: for a sequence that never becomes decodable, per-byte delivery
can flush a valid early portion that single-call delivery withholds. -/
theorem pty_incremental_decode (bytes xs ys : List Nat) (calls : List (List Nat))
    (h1 : validUtf8 bytes = true) (h2 : validUtf8 (xs ++ ys) = true) :
    (feedBytes PseudoTerminal.new bytes).display
        = (PseudoTerminal.new.add_byte_input bytes).display
    ∧ (feedCalls PseudoTerminal.new [xs, ys]).display
        = (PseudoTerminal.new.add_byte_input (xs ++ ys)).display
    ∧ validUtf8 (feedCalls PseudoTerminal.new calls).display = true := by
  have hwhole : ∀ (bs : List Nat), validUtf8 bs = true →
      PseudoTerminal.new.add_byte_input bs = ⟨bs, []⟩ := by
    intro bs h
    simp [PseudoTerminal.add_byte_input, PseudoTerminal.new, h]
  refine ⟨?_, ?_, ?_⟩
  · rw [feedBytes_eq_feedCalls, hwhole bytes h1]
    cases hb : bytes with
    | nil => simp [hb, feedCalls, PseudoTerminal.new]
    | cons b bs =>
      rw [← hb]
      rw [feedCalls_flush (bytes.map (fun b => [b])) (by simp [hb]) PseudoTerminal.new
          (by rfl) (by simpa [PseudoTerminal.new, flatten_map_singleton] using h1)]
      simp [PseudoTerminal.new, flatten_map_singleton]
  · rw [hwhole (xs ++ ys) h2]
    rw [feedCalls_flush [xs, ys] (by simp) PseudoTerminal.new (by rfl)
        (by simpa [PseudoTerminal.new] using h2)]
    simp [PseudoTerminal.new]
  · exact feedCalls_display_valid calls PseudoTerminal.new (by rfl)

/-- Claim C1, counterexample to the unrestricted statement: delivering
`[0x61, 0xFF]` one byte at a time writes `"a"` (the first call's buffer
`[0x61]` decodes and is flushed), while delivering it in a single call
writes nothing (the whole buffer fails to decode), so the two display
logs differ. -/
theorem pty_incremental_decode_counterexample :
    ¬ ((feedBytes PseudoTerminal.new [97, 255]).display
        = (PseudoTerminal.new.add_byte_input [97, 255]).display) := by decide

/-- Claim C1, witness: the two-byte character `é` (`[0xC3, 0xA9]`) delivered
byte-wise, split across two calls, and whole. -/
theorem pty_incremental_decode_witness :
    validUtf8 [195, 169] = true ∧ validUtf8 ([195] ++ [169]) = true ∧
    ((feedBytes PseudoTerminal.new [195, 169]).display
        = (PseudoTerminal.new.add_byte_input [195, 169]).display
     ∧ (feedCalls PseudoTerminal.new [[195], [169]]).display
        = (PseudoTerminal.new.add_byte_input ([195] ++ [169])).display
     ∧ validUtf8 (feedCalls PseudoTerminal.new [[97], [255]]).display = true) :=
  ⟨by decide, by decide,
    pty_incremental_decode [195, 169] [195] [169] [[97], [255]] (by decide) (by decide)⟩

/-- Claim C3, amended: after every sequence of `add_byte_input` calls the
pending buffer holds exactly the not-yet-decoded suffix of all delivered
bytes (display plus buffer equals everything delivered), and it is either
empty or not decodable as UTF-8.  It is *not* restricted to the trailing
bytes of a single incomplete character: a call whose chunk ends mid-character
retains complete characters together with the partial one, because the
decode is all-or-nothing over the whole buffer. -/
theorem pty_buffer_invariant (calls : List (List Nat)) :
    (feedCalls PseudoTerminal.new calls).display
        ++ (feedCalls PseudoTerminal.new calls).input_buffer = calls.flatten
    ∧ ((feedCalls PseudoTerminal.new calls).input_buffer = []
        ∨ validUtf8 (feedCalls PseudoTerminal.new calls).input_buffer = false) := by
  constructor
  · simpa [PseudoTerminal.new] using feedCalls_content calls PseudoTerminal.new
  · exact feedCalls_buffer_invalid calls PseudoTerminal.new (Or.inl rfl)

/-- Claim C3, counterexample to the stated invariant: one call delivering
`[0x61, 0xC3]` (a complete `a` followed by a truncated two-byte character)
leaves the buffer `[0x61, 0xC3]`, which is neither empty nor the trailing
bytes of a single incomplete encoded character. -/
theorem pty_buffer_invariant_counterexample :
    ¬ ((PseudoTerminal.new.add_byte_input [97, 195]).input_buffer = []
       ∨ isIncompleteChar (PseudoTerminal.new.add_byte_input [97, 195]).input_buffer
          = true) := by
  decide

/-! ## Claims C4 and C5: the console -/

/-- Claim C4: on line submission (`Enter`), a prompt holding the reserved
token `"!stop"` only signals a session interrupt — no command is executed
and no line is logged; any other prompt content is executed exactly once
and appends exactly the echo line `(gdb) <line>` followed by exactly one
of the `Result:`/`quit`/`GDB is running!` lines, matching the execute
outcome. -/
theorem console_submission (c : Console) (gdb : GdbState) (resp : String → ExecResult) :
    ((Console.event c gdb resp (Event.key (Key.char '\n'))).2.interrupts,
     (Console.event c gdb resp (Event.key (Key.char '\n'))).2.executed,
     (Console.event c gdb resp (Event.key (Key.char '\n'))).1.text_area) =
    (if c.prompt_line = "!stop" then
      (gdb.interrupts + 1, gdb.executed, c.text_area)
     else
      (gdb.interrupts, gdb.executed ++ [c.prompt_line],
       c.text_area ++ [LogMsg.echo c.prompt_line, outcomeMsg (resp c.prompt_line)])) := by
  by_cases h : c.prompt_line = "!stop"
  · simp [Console.event, h, GdbState.interrupt_execution]
  · cases hr : resp c.prompt_line <;>
      simp [Console.event, h, hr, GdbState.execute, Console.add_message, outcomeMsg]

/-- Claim C5: a non-submit `Ctrl-C` with an empty prompt signals a session
interrupt and leaves the prompt untouched (the event is consumed before the
editing behaviour); with a non-empty prompt it clears the prompt and does
not signal an interrupt.  Neither case executes a command or logs a line. -/
theorem console_interrupt_key (c : Console) (gdb : GdbState) (resp : String → ExecResult) :
    ((Console.event c gdb resp (Event.key (Key.ctrl 'c'))).2.interrupts,
     (Console.event c gdb resp (Event.key (Key.ctrl 'c'))).1.prompt_line,
     (Console.event c gdb resp (Event.key (Key.ctrl 'c'))).2.executed,
     (Console.event c gdb resp (Event.key (Key.ctrl 'c'))).1.text_area) =
    (if c.prompt_line = "" then
      (gdb.interrupts + 1, c.prompt_line, gdb.executed, c.text_area)
     else
      (gdb.interrupts, "", gdb.executed, c.text_area)) := by
  by_cases h : c.prompt_line = ""
  · simp [Console.event, h, GdbState.interrupt_execution]
  · simp [Console.event, h, Console.editStep]

/-! ## Claims C9, C2 and C6: the file viewer -/

/-- Claim C9: loading a path into the file viewer fails (with the
`io::Error` that `show` wraps as `CouldNotOpenFile`) exactly when the
line-indexed storage cannot be opened; when it opens, the syntax matching
the file is selected with plain text as the fallback, the highlighter is
bound to the constructor-supplied theme, and the call always completes —
the syntax lookup never faults for an openable file. -/
theorem load_in_file_viewer_spec (fs : Fs) (g : Gui) (path : String) :
    Gui.load_in_file_viewer fs g path =
      some ({ fs with opens := fs.opens ++ [path] },
        match fs.files path with
        | none => Except.error ()
        | some ls => Except.ok { g with file_viewer :=
            { content := some ⟨⟨path, ls⟩, (fs.synFor path).getD plainTextSyn,
                               g.highlighting_theme⟩,
              pos := 0 } })
    ∧ Gui.load_in_file_viewer fs g path ≠ none := by
  cases h : fs.files path <;>
    simp [Gui.load_in_file_viewer, FileLineStorage.new, findSynForFile, h, Pager.load]

/-- Claim C2, amended: a `show_in_file_viewer` call whose line is beyond
the file's line count returns `LineDoesNotExist(line)`; when the requested
path is the one already loaded, the call changes nothing at all; but when
a reload is needed and the file opens, the new file *is* loaded (the old
content discarded, the viewport reset) even though the call fails — the
failed call is not free of viewport change in that case. -/
theorem show_line_out_of_range
    (fs : Fs) (g : Gui) (path : String) (line : Nat) (lf : LoadedFile)
    (fs2 : Fs) (g2 : Gui) (path2 : String) (line2 : Nat) (ls2 : List String)
    (ha1 : g.file_viewer.content = some lf)
    (ha2 : lf.storage.path = path)
    (ha3 : lf.storage.lines.length ≤ line)
    (hb1 : needToReload g2 path2 = true)
    (hb2 : fs2.files path2 = some ls2)
    (hb3 : ls2.length ≤ line2) :
    Gui.show_in_file_viewer fs g path line
      = some (fs, g, .error (.lineDoesNotExist line))
    ∧ Gui.show_in_file_viewer fs2 g2 path2 line2
      = some ({ fs2 with opens := fs2.opens ++ [path2] },
              { g2 with file_viewer :=
                { content := some ⟨⟨path2, ls2⟩, (fs2.synFor path2).getD plainTextSyn,
                                   g2.highlighting_theme⟩,
                  pos := 0 } },
              .error (.lineDoesNotExist line2)) := by
  constructor
  · have hnr : needToReload g path = false := by simp [needToReload, ha1, ha2]
    simp [Gui.show_in_file_viewer, hnr, Pager.go_to_line, ha1, Nat.not_lt.mpr ha3]
  · simp [Gui.show_in_file_viewer, hb1, Gui.load_in_file_viewer, FileLineStorage.new,
          findSynForFile, hb2, Pager.load, Pager.go_to_line, Nat.not_lt.mpr hb3]

/-- Claim C2, counterexample to the stated no-change property: with
`/a.c` loaded, `show_in_file_viewer("/b.c", 5)` (where `/b.c` has one
line) returns `LineDoesNotExist(5)` but the loaded file has changed from
`/a.c` to `/b.c`. -/
theorem show_line_out_of_range_counterexample :
    showErrOf (Gui.show_in_file_viewer fsAB guiA "/b.c" 5)
      = some (.lineDoesNotExist 5)
    ∧ (showGuiOf (Gui.show_in_file_viewer fsAB guiA "/b.c" 5)).map pagerPathOf
      = some (some "/b.c")
    ∧ pagerPathOf guiA = some "/a.c" := by decide

/-- Claim C2, witness: line 5 of the loaded two-line `/a.c` (no state
change), and line 7 of a freshly requested one-line `/b.c` (the new file
gets loaded despite the error). -/
theorem show_line_out_of_range_witness :
    guiA.file_viewer.content = some ⟨⟨"/a.c", ["aaa", "bbb"]⟩, "C", "base16"⟩
    ∧ (⟨⟨"/a.c", ["aaa", "bbb"]⟩, "C", "base16"⟩ : LoadedFile).storage.path = "/a.c"
    ∧ (⟨⟨"/a.c", ["aaa", "bbb"]⟩, "C", "base16"⟩ : LoadedFile).storage.lines.length ≤ 5
    ∧ needToReload guiEmpty "/b.c" = true
    ∧ fsAB.files "/b.c" = some ["xxx"]
    ∧ (["xxx"] : List String).length ≤ 7
    ∧ (Gui.show_in_file_viewer fsAB guiA "/a.c" 5
        = some (fsAB, guiA, .error (.lineDoesNotExist 5))
       ∧ Gui.show_in_file_viewer fsAB guiEmpty "/b.c" 7
        = some ({ fsAB with opens := fsAB.opens ++ ["/b.c"] },
                { guiEmpty with file_viewer :=
                  { content := some ⟨⟨"/b.c", ["xxx"]⟩, (fsAB.synFor "/b.c").getD plainTextSyn,
                                     guiEmpty.highlighting_theme⟩,
                    pos := 0 } },
                .error (.lineDoesNotExist 7))) :=
  ⟨rfl, rfl, by decide, by decide, rfl, by decide,
   show_line_out_of_range fsAB guiA "/a.c" 5 ⟨⟨"/a.c", ["aaa", "bbb"]⟩, "C", "base16"⟩
     fsAB guiEmpty "/b.c" 7 ["xxx"] rfl rfl (by decide) (by decide) rfl (by decide)⟩

/-- When the requested path is the loaded one, no reload is needed. -/
theorem needToReload_false_of_path (g : Gui) (path : String)
    (h : pagerPathOf g = some path) : needToReload g path = false := by
  unfold pagerPathOf at h
  unfold needToReload
  cases hc : g.file_viewer.content with
  | none => rw [hc] at h; simp at h
  | some lf =>
    rw [hc] at h
    simp at h
    simp [h]

/-- When the requested path is not the loaded one, a reload is needed. -/
theorem needToReload_true_of_path (g : Gui) (path : String)
    (h : pagerPathOf g ≠ some path) : needToReload g path = true := by
  unfold pagerPathOf at h
  unfold needToReload
  cases hc : g.file_viewer.content with
  | none => rfl
  | some lf =>
    rw [hc] at h
    simp at h
    simp [h]

/-- Unconditional shape of `load_in_file_viewer`. -/
theorem load_in_file_viewer_eq (fs : Fs) (g : Gui) (path : String) :
    Gui.load_in_file_viewer fs g path =
      some ({ fs with opens := fs.opens ++ [path] },
        match fs.files path with
        | none => Except.error ()
        | some ls => Except.ok { g with file_viewer :=
            { content := some ⟨⟨path, ls⟩, (fs.synFor path).getD plainTextSyn,
                               g.highlighting_theme⟩,
              pos := 0 } }) := by
  cases h : fs.files path <;>
    simp [Gui.load_in_file_viewer, FileLineStorage.new, findSynForFile, h, Pager.load]

/-- A `show_in_file_viewer` call opens the storage exactly when a reload is
needed. -/
theorem show_opens (fs : Fs) (g : Gui) (path : String) (line : Nat) :
    opensOf (Gui.show_in_file_viewer fs g path line)
      = some (fs.opens ++ (if needToReload g path then [path] else [])) := by
  by_cases hnr : needToReload g path = true
  · simp only [Gui.show_in_file_viewer, hnr, if_true, load_in_file_viewer_eq]
    cases hf : fs.files path with
    | none => simp [hf, opensOf]
    | some ls =>
      simp only [hf]
      split <;> simp [opensOf, hnr]
  · simp only [Bool.not_eq_true] at hnr
    simp only [Gui.show_in_file_viewer, hnr, Bool.false_eq_true, if_false]
    split <;> simp [opensOf, hnr]

/-- After a non-faulting `show_in_file_viewer` call on an openable path,
that path is the loaded one. -/
theorem show_loaded_path (fs : Fs) (g : Gui) (path : String) (line : Nat)
    (fs1 : Fs) (g1 : Gui) (r1 : Except PagerShowError Unit)
    (h1 : Gui.show_in_file_viewer fs g path line = some (fs1, g1, r1))
    (h2 : fs.files path ≠ none) : pagerPathOf g1 = some path := by
  by_cases hnr : needToReload g path = true
  · cases hf : fs.files path with
    | none => exact absurd hf h2
    | some ls =>
      simp only [Gui.show_in_file_viewer, hnr, if_true, load_in_file_viewer_eq, hf] at h1
      by_cases hl : line < ls.length
      · simp [Pager.go_to_line, hl] at h1
        obtain ⟨-, hg, -⟩ := h1
        subst hg
        simp [pagerPathOf]
      · simp [Pager.go_to_line, hl] at h1
        obtain ⟨-, hg, -⟩ := h1
        subst hg
        simp [pagerPathOf]
  · simp only [Bool.not_eq_true] at hnr
    have hc : ∃ lf, g.file_viewer.content = some lf ∧ lf.storage.path = path := by
      unfold needToReload at hnr
      cases hc : g.file_viewer.content with
      | none => rw [hc] at hnr; simp at hnr
      | some lf =>
        rw [hc] at hnr
        simp at hnr
        exact ⟨lf, rfl, hnr⟩
    obtain ⟨lf, hcc, hp⟩ := hc
    simp only [Gui.show_in_file_viewer, hnr, Bool.false_eq_true, if_false] at h1
    by_cases hl : line < lf.storage.lines.length
    · simp [Pager.go_to_line, hcc, hl] at h1
      obtain ⟨-, hg, -⟩ := h1
      subst hg
      simp [pagerPathOf, hcc, hp]
    · simp [Pager.go_to_line, hcc, hl] at h1
      obtain ⟨-, hg, -⟩ := h1
      subst hg
      simp [pagerPathOf, hcc, hp]

/-- Claim C6: the storage is opened by `show_in_file_viewer` exactly when
the requested path differs from the loaded one or nothing is loaded; two
consecutive calls with the same (openable) path open the storage only
once — the second call performs no open; a call whose path differs from
the loaded one always opens the storage anew. -/
theorem show_reload_exactly_when_needed
    (fs : Fs) (g : Gui) (path : String) (line line2 : Nat)
    (fs1 : Fs) (g1 : Gui) (r1 : Except PagerShowError Unit)
    (fs2 : Fs) (g2 : Gui) (path2 : String) (line3 : Nat)
    (h1 : Gui.show_in_file_viewer fs g path line = some (fs1, g1, r1))
    (h2 : fs.files path ≠ none)
    (h3 : pagerPathOf g2 ≠ some path2) :
    opensOf (Gui.show_in_file_viewer fs g path line)
      = some (fs.opens ++ (if needToReload g path then [path] else []))
    ∧ opensOf (Gui.show_in_file_viewer fs1 g1 path line2) = some fs1.opens
    ∧ opensOf (Gui.show_in_file_viewer fs2 g2 path2 line3)
      = some (fs2.opens ++ [path2]) := by
  refine ⟨show_opens fs g path line, ?_, ?_⟩
  · have hp : pagerPathOf g1 = some path := show_loaded_path fs g path line fs1 g1 r1 h1 h2
    rw [show_opens fs1 g1 path line2, needToReload_false_of_path g1 path hp]
    simp
  · rw [show_opens fs2 g2 path2 line3, needToReload_true_of_path g2 path2 h3]
    simp

/-- Claim C6, witness: a first call loading `/a.c`, a second call with the
same path that opens nothing, and a call for the not-loaded `/b.c` that
opens it. -/
theorem show_reload_exactly_when_needed_witness :
    Gui.show_in_file_viewer fsAB guiEmpty "/a.c" 0
      = some ({ fsAB with opens := ["/a.c"] },
              { guiEmpty with file_viewer :=
                { content := some ⟨⟨"/a.c", ["aaa", "bbb"]⟩, "C", "base16"⟩, pos := 0 } },
              .ok ())
    ∧ fsAB.files "/a.c" ≠ none
    ∧ pagerPathOf guiEmpty ≠ some "/b.c"
    ∧ (opensOf (Gui.show_in_file_viewer fsAB guiEmpty "/a.c" 0)
        = some (fsAB.opens ++ (if needToReload guiEmpty "/a.c" then ["/a.c"] else []))
       ∧ opensOf (Gui.show_in_file_viewer { fsAB with opens := ["/a.c"] }
            { guiEmpty with file_viewer :=
              { content := some ⟨⟨"/a.c", ["aaa", "bbb"]⟩, "C", "base16"⟩, pos := 0 } } "/a.c" 3)
          = some ({ fsAB with opens := ["/a.c"] } : Fs).opens
       ∧ opensOf (Gui.show_in_file_viewer fsAB guiEmpty "/b.c" 0)
          = some (fsAB.opens ++ ["/b.c"])) :=
  ⟨rfl, by decide, by decide,
   show_reload_exactly_when_needed fsAB guiEmpty "/a.c" 0 3
     { fsAB with opens := ["/a.c"] }
     { guiEmpty with file_viewer :=
       { content := some ⟨⟨"/a.c", ["aaa", "bbb"]⟩, "C", "base16"⟩, pos := 0 } }
     (.ok ()) fsAB guiEmpty "/b.c" 0 rfl (by decide) (by decide)⟩

/-! ## Claims C7, C8 and C10: out-of-band records -/

/-- Claim C7: an async record of kind `Exec` and class `Stopped` whose
fields carry `frame.fullname` and a `frame.line` parsing to a positive
integer is handled by first logging the raw payload to the console log and
then driving the pager to the named file at the zero-based line one less
than the parsed 1-based line, extracting both fields destructively; the
whole call succeeds exactly when that `show` call does (its failure is the
source's `expect` fault). -/
theorem stopped_record_drives_pager
    (fs : Fs) (g : Gui) (tok : Option Nat)
    (results rest frame frame2 frame3 : NamedValues) (p ls : String) (n : Nat)
    (h1 : nvRemove results "frame" = some (Value.tuple frame, rest))
    (h2 : nvRemove frame "fullname" = some (Value.const p, frame2))
    (h3 : nvRemove frame2 "line" = some (Value.const ls, frame3))
    (h4 : parseUsize ls = some n)
    (h5 : 1 ≤ n) :
    Gui.add_out_of_band_record fs g (.asyncRecord tok .exec .stopped results) =
      (match Gui.show_in_file_viewer fs (addConsoleMsg g (LogMsg.stopped results)) p (n - 1) with
       | some (fs1, g2, .ok _) => some (fs1, g2)
       | some (_, _, .error _) => none
       | none => none) := by
  have hsub : checkedSub1 n = some (n - 1) := by
    unfold checkedSub1
    rw [if_neg (by omega)]
  simp only [Gui.add_out_of_band_record, Gui.handle_async_record, h1,
    Value.unwrap_tuple_or_named_value_list, h2, Value.unwrap_const, h3, h4, hsub]

/-- Claim C7, witness: `fullname "/a.c"` with `line "11"` drives the pager
to `/a.c` at zero-based line 10 (visible as `pos := 10` below), after the
raw payload is logged. -/
theorem stopped_record_drives_pager_witness :
    nvRemove stoppedResults "frame"
      = some (Value.tuple [("fullname", Value.const "/a.c"), ("line", Value.const "11")], [])
    ∧ nvRemove [("fullname", Value.const "/a.c"), ("line", Value.const "11")] "fullname"
      = some (Value.const "/a.c", [("line", Value.const "11")])
    ∧ nvRemove [("line", Value.const "11")] "line" = some (Value.const "11", [])
    ∧ parseUsize "11" = some 11
    ∧ 1 ≤ 11
    ∧ Gui.add_out_of_band_record fsTall guiEmpty
        (.asyncRecord none .exec .stopped stoppedResults)
      = some ({ fsTall with opens := ["/a.c"] },
              { console := { text_area := [LogMsg.stopped stoppedResults], scroll := 0,
                             prompt_line := "", cursor := 0 },
                process_pty := PseudoTerminal.new,
                highlighting_theme := "base16",
                file_viewer :=
                  { content := some ⟨⟨"/a.c", tallLines⟩, plainTextSyn, "base16"⟩,
                    pos := 10 } }) :=
  ⟨rfl, rfl, rfl, by decide, by decide,
   (stopped_record_drives_pager fsTall guiEmpty none stoppedResults []
      [("fullname", Value.const "/a.c"), ("line", Value.const "11")]
      [("line", Value.const "11")] [] "/a.c" "11" 11
      rfl rfl rfl (by decide) (by decide)).trans rfl⟩

/-- Claim C8: any async record whose kind/class pair is not
`(Exec, Stopped)` appends exactly one `unhandled` message carrying the raw
payload to the console log and changes nothing else — the pager, the pty
view and the prompt are untouched. -/
theorem unhandled_record_logs_only
    (fs : Fs) (g : Gui) (kind : AsyncKind) (cls : AsyncClass) (results : NamedValues)
    (h : ¬(kind = AsyncKind.exec ∧ cls = AsyncClass.stopped)) :
    Gui.handle_async_record fs g kind cls results
      = some (fs, addConsoleMsg g (.unhandled kind cls results))
    ∧ (addConsoleMsg g (.unhandled kind cls results)).file_viewer = g.file_viewer
    ∧ (addConsoleMsg g (.unhandled kind cls results)).process_pty = g.process_pty
    ∧ (addConsoleMsg g (.unhandled kind cls results)).console.prompt_line
        = g.console.prompt_line := by
  refine ⟨?_, rfl, rfl, rfl⟩
  cases kind <;> cases cls <;> simp_all [Gui.handle_async_record]

/-- Claim C8, witness: a `(Notify, Running)` record. -/
theorem unhandled_record_logs_only_witness :
    ¬(AsyncKind.notify = AsyncKind.exec ∧ AsyncClass.running = AsyncClass.stopped)
    ∧ (Gui.handle_async_record fsAB guiEmpty AsyncKind.notify AsyncClass.running []
        = some (fsAB, addConsoleMsg guiEmpty (.unhandled AsyncKind.notify AsyncClass.running []))
       ∧ (addConsoleMsg guiEmpty (.unhandled AsyncKind.notify AsyncClass.running [])).file_viewer
          = guiEmpty.file_viewer
       ∧ (addConsoleMsg guiEmpty (.unhandled AsyncKind.notify AsyncClass.running [])).process_pty
          = guiEmpty.process_pty
       ∧ (addConsoleMsg guiEmpty
            (.unhandled AsyncKind.notify AsyncClass.running [])).console.prompt_line
          = guiEmpty.console.prompt_line) :=
  ⟨by decide, unhandled_record_logs_only fsAB guiEmpty .notify .running [] (by decide)⟩

/-- Claim C10: the 1-based-to-0-based conversion subtracts 1 from the
parsed line number, so an otherwise well-formed `(Exec, Stopped)` record
whose `line` field is `"0"` makes `add_out_of_band_record` fault on the
underflowing `usize` subtraction before the pager is ever consulted — the
fault occurs for every gui state and every filesystem. -/
theorem stopped_record_line_zero_faults
    (fs : Fs) (g : Gui) (tok : Option Nat)
    (results rest frame frame2 frame3 : NamedValues) (p : String)
    (h1 : nvRemove results "frame" = some (Value.tuple frame, rest))
    (h2 : nvRemove frame "fullname" = some (Value.const p, frame2))
    (h3 : nvRemove frame2 "line" = some (Value.const "0", frame3)) :
    Gui.add_out_of_band_record fs g (.asyncRecord tok .exec .stopped results) = none := by
  simp only [Gui.add_out_of_band_record, Gui.handle_async_record, h1,
    Value.unwrap_tuple_or_named_value_list, h2, Value.unwrap_const, h3]
  rfl

/-- Claim C10, witness: the record `frame.fullname "/a.c"`, `frame.line "0"`
faults even though `/a.c` exists. -/
theorem stopped_record_line_zero_faults_witness :
    nvRemove stoppedResultsLine0 "frame"
      = some (Value.tuple [("fullname", Value.const "/a.c"), ("line", Value.const "0")], [])
    ∧ nvRemove [("fullname", Value.const "/a.c"), ("line", Value.const "0")] "fullname"
      = some (Value.const "/a.c", [("line", Value.const "0")])
    ∧ nvRemove [("line", Value.const "0")] "line" = some (Value.const "0", [])
    ∧ Gui.add_out_of_band_record fsTall guiEmpty
        (.asyncRecord none .exec .stopped stoppedResultsLine0) = none :=
  ⟨rfl, rfl, rfl,
   stopped_record_line_zero_faults fsTall guiEmpty none stoppedResultsLine0 []
     [("fullname", Value.const "/a.c"), ("line", Value.const "0")]
     [("line", Value.const "0")] [] "/a.c" rfl rfl rfl⟩

end Ugdb
